import Mathlib

/-!
Verification of the differential-diagnosis scoring core of a clinical
decision-support prototype: the symptom normalizer (`normalize_symptoms`)
and the differential scorer (`get_differential_diagnosis`) together with
their static backing tables (`symptoms_db`, `conditions_db`), embedded
shallowly from `src/client/clinical_assistant.py`.
-/

namespace Clinician

/-- Free text, modelled as a list of characters (a Python `str`). -/
abbrev Text := List Char

/-- Python `str.lower`, character-wise. -/
def lowerText (t : Text) : Text := t.map Char.toLower

/-- The symptom vocabulary of `_load_symptoms_db`: each canonical tag with its
list of surface-form synonyms, in the source's insertion order. -/
def symptoms_db : List (String × List Text) :=
  [ ("fever", ["fever".data, "high temperature".data, "pyrexia".data,
               "febrile".data, "hot".data, "burning up".data]),
    ("headache", ["headache".data, "head pain".data, "cephalgia".data,
                  "migraine".data, "head hurts".data]),
    ("cough", ["cough".data, "coughing".data, "persistent cough".data,
               "dry cough".data, "wet cough".data]),
    ("fatigue", ["tired".data, "fatigue".data, "exhaustion".data,
                 "weakness".data, "worn out".data, "drained".data]),
    ("sore_throat", ["sore throat".data, "throat pain".data,
                     "scratchy throat".data, "throat hurts".data]),
    ("runny_nose", ["runny nose".data, "nasal congestion".data,
                    "stuffy nose".data, "blocked nose".data]),
    ("body_aches", ["body aches".data, "muscle pain".data, "joint pain".data,
                    "aches".data, "soreness".data]) ]

/-- The dictionary returned by `normalize_symptoms`: the original input, the
deduplicated set of matched canonical tags, and that set's cardinality. -/
structure NormalizationResult where
  original_input : Text
  normalized_symptoms : Finset String
  symptom_count : Nat
deriving DecidableEq

/-- One pass of the inner loop of `normalize_symptoms`: does any synonym of a
tag occur as a substring of the lower-cased input?  (Python's
`variation in symptoms_lower` with the early `break` is equivalent to `any`.) -/
def matchesAny (lower : Text) (variations : List Text) : Bool :=
  variations.any (fun v => decide (v <:+: lower))

/-- `normalize_symptoms` from `clinical_assistant.py`: lower-case the input,
collect every canonical tag one of whose synonyms is a substring of it, and
deduplicate (`list(set(normalized))`). -/
def normalize_symptoms (symptoms_text : Text) : NormalizationResult :=
  let symptoms_lower := lowerText symptoms_text
  let normalized := (symptoms_db.filter (fun p => matchesAny symptoms_lower p.2)).map Prod.fst
  { original_input := symptoms_text
    normalized_symptoms := normalized.toFinset
    symptom_count := normalized.toFinset.card }

/-- The value stored for one combination key of `_load_conditions_db`. -/
structure ConditionInfo where
  conditions : List String
  urgency : String
  likelihood : List ℚ
deriving DecidableEq

def combo1 : Finset String := {"fever", "cough"}

def info1 : ConditionInfo :=
  { conditions := ["Upper Respiratory Infection", "Pneumonia", "Bronchitis"]
    urgency := "moderate"
    likelihood := [0.6, 0.2, 0.2] }

def combo2 : Finset String := {"fever", "headache"}

def info2 : ConditionInfo :=
  { conditions := ["Viral Infection", "Sinusitis", "Meningitis"]
    urgency := "moderate"
    likelihood := [0.7, 0.2, 0.1] }

def combo3 : Finset String := {"fever", "cough", "fatigue"}

def info3 : ConditionInfo :=
  { conditions := ["Influenza", "COVID-19", "Pneumonia", "Bronchitis"]
    urgency := "moderate"
    likelihood := [0.4, 0.3, 0.2, 0.1] }

def combo4 : Finset String := {"cough", "fatigue"}

def info4 : ConditionInfo :=
  { conditions := ["Upper Respiratory Infection", "Bronchitis", "Allergies"]
    urgency := "low"
    likelihood := [0.5, 0.3, 0.2] }

/-- `_load_conditions_db`: the fixed combination table, as an association list
in the dict's insertion order (a Python dict iterates in insertion order). -/
def conditions_db : List (Finset String × ConditionInfo) :=
  [(combo1, info1), (combo2, info2), (combo3, info3), (combo4, info4)]

/-- The Jaccard match score of the scorer's loop body: `intersection` over
`union`, with `score = 0` when the union is empty (the `if union > 0` guard). -/
def jaccard (a b : Finset String) : ℚ :=
  if (a ∪ b).card > 0 then ((a ∩ b).card : ℚ) / ((a ∪ b).card : ℚ) else 0

/-- The fallback bundle returned when no table entry scored above 0. -/
def fallbackBundle : ConditionInfo :=
  { conditions := ["Consult healthcare provider for evaluation"]
    urgency := "unknown"
    likelihood := [1.0] }

/-- The scorer's loop: fold over the table tracking `(best_score, best_match)`,
updating only on a strictly greater score. -/
def scanBest (s : Finset String) (l : List (Finset String × ConditionInfo))
    (acc : ℚ × Option ConditionInfo) : ℚ × Option ConditionInfo :=
  l.foldl (fun acc e => if jaccard s e.1 > acc.1 then (jaccard s e.1, some e.2) else acc) acc

/-- `get_differential_diagnosis` from `clinical_assistant.py`: scan the table
starting from `best_score = 0`, `best_match = None`; return the best match,
or the fallback bundle when none was ever set.  (In the source every stored
dict is non-empty, so Python's `if best_match:` tests exactly `is not None`.) -/
def get_differential_diagnosis (symptoms : Finset String) : ConditionInfo :=
  match (scanBest symptoms conditions_db (0, none)).2 with
  | some info => info
  | none => fallbackBundle

/-- Division that reports rather than defaults on a zero divisor, used to show
the source's `if union > 0` guard makes the score total. -/
def divChecked (x y : ℚ) : Option ℚ := if y = 0 then none else some (x / y)

/-- `jaccard` with the division checked: `none` would mean the guard let a
zero divisor through. -/
def jaccardChecked (a b : Finset String) : Option ℚ :=
  if (a ∪ b).card > 0 then divChecked ((a ∩ b).card : ℚ) ((a ∪ b).card : ℚ)
  else some 0

/-- The scorer's loop with the checked score threaded through `Option`. -/
def scanBestChecked (s : Finset String) (l : List (Finset String × ConditionInfo))
    (acc : ℚ × Option ConditionInfo) : Option (ℚ × Option ConditionInfo) :=
  l.foldlM (fun acc e => (jaccardChecked s e.1).map
    (fun sc => if sc > acc.1 then (sc, some e.2) else acc)) acc

/-- `get_differential_diagnosis` with every division checked. -/
def get_differential_diagnosis_checked (symptoms : Finset String) : Option ConditionInfo :=
  (scanBestChecked symptoms conditions_db (0, none)).map
    (fun r => match r.2 with
      | some info => info
      | none => fallbackBundle)

/-! ### Basic facts about the Jaccard score -/

lemma jaccard_nonneg (a b : Finset String) : 0 ≤ jaccard a b := by
  rw [jaccard]
  split_ifs
  · positivity
  · exact le_refl 0

lemma jaccard_eq_zero_of_disjoint {a b : Finset String} (h : a ∩ b = ∅) :
    jaccard a b = 0 := by
  rw [jaccard]
  split_ifs
  · rw [h]
    simp
  · rfl

lemma jaccard_concrete {a b : Finset String} {i u : ℕ} (hi : (a ∩ b).card = i)
    (hu : (a ∪ b).card = u) (h0 : 0 < u) : jaccard a b = (i : ℚ) / (u : ℚ) := by
  rw [jaccard, hi, hu, if_pos h0]

/-! ### Invariants of the scorer's fold -/

lemma scanBest_nil (s : Finset String) (acc : ℚ × Option ConditionInfo) :
    scanBest s [] acc = acc := rfl

lemma scanBest_cons (s : Finset String) (e : Finset String × ConditionInfo)
    (l : List (Finset String × ConditionInfo)) (acc : ℚ × Option ConditionInfo) :
    scanBest s (e :: l) acc =
      scanBest s l (if jaccard s e.1 > acc.1 then (jaccard s e.1, some e.2) else acc) := rfl

/-- If no entry beats the running best, the fold leaves the accumulator alone. -/
lemma scanBest_id {s : Finset String} {l : List (Finset String × ConditionInfo)}
    {acc : ℚ × Option ConditionInfo} (h : ∀ e ∈ l, jaccard s e.1 ≤ acc.1) :
    scanBest s l acc = acc := by
  induction l with
  | nil => rfl
  | cons e t ih =>
    rw [scanBest_cons, if_neg (not_lt.mpr (h e (List.mem_cons_self e t)))]
    exact ih fun e' he' => h e' (List.mem_cons_of_mem _ he')

/-- The running best score never decreases along the fold. -/
lemma scanBest_fst_mono (s : Finset String) (l : List (Finset String × ConditionInfo)) :
    ∀ acc : ℚ × Option ConditionInfo, acc.1 ≤ (scanBest s l acc).1 := by
  induction l with
  | nil => intro acc; exact le_refl _
  | cons e t ih =>
    intro acc
    rw [scanBest_cons]
    by_cases hc : jaccard s e.1 > acc.1
    · rw [if_pos hc]
      exact le_trans (le_of_lt hc) (ih _)
    · rw [if_neg hc]
      exact ih acc

/-- Every entry's score is bounded by the final best score. -/
lemma scanBest_le (s : Finset String) (l : List (Finset String × ConditionInfo)) :
    ∀ (acc : ℚ × Option ConditionInfo), ∀ e ∈ l, jaccard s e.1 ≤ (scanBest s l acc).1 := by
  induction l with
  | nil => intro acc e he; cases he
  | cons e t ih =>
    intro acc e' he'
    rw [scanBest_cons]
    rcases List.mem_cons.mp he' with rfl | he'
    · by_cases hc : jaccard s e'.1 > acc.1
      · rw [if_pos hc]
        exact scanBest_fst_mono s t _
      · rw [if_neg hc]
        exact le_trans (not_lt.mp hc) (scanBest_fst_mono s t acc)
    · by_cases hc : jaccard s e.1 > acc.1
      · rw [if_pos hc]; exact ih _ e' he'
      · rw [if_neg hc]; exact ih acc e' he'

/-- A `none` result means nothing ever beat the starting best score. -/
lemma scanBest_snd_none {s : Finset String} {l : List (Finset String × ConditionInfo)} :
    ∀ {acc : ℚ × Option ConditionInfo}, (scanBest s l acc).2 = none →
      acc.2 = none ∧ ∀ e ∈ l, jaccard s e.1 ≤ acc.1 := by
  induction l with
  | nil => intro acc h; exact ⟨h, fun e he => absurd he (List.not_mem_nil e)⟩
  | cons e t ih =>
    intro acc h
    rw [scanBest_cons] at h
    by_cases hc : jaccard s e.1 > acc.1
    · rw [if_pos hc] at h
      exact absurd (ih h).1 (Option.some_ne_none _)
    · rw [if_neg hc] at h
      obtain ⟨h1, h2⟩ := ih h
      refine ⟨h1, fun e' he' => ?_⟩
      rcases List.mem_cons.mp he' with rfl | he'
      · exact not_lt.mp hc
      · exact h2 e' he'

/-- A `some` result is the value of some scanned entry, with the final best
score equal to that entry's score — unless it was already in the accumulator. -/
lemma scanBest_achieves {s : Finset String} {l : List (Finset String × ConditionInfo)} :
    ∀ {acc : ℚ × Option ConditionInfo} {v : ConditionInfo}, (scanBest s l acc).2 = some v →
      (∃ p ∈ l, v = p.2 ∧ (scanBest s l acc).1 = jaccard s p.1) ∨
        (acc.2 = some v ∧ (scanBest s l acc).1 = acc.1) := by
  induction l with
  | nil => intro acc v h; exact Or.inr ⟨h, rfl⟩
  | cons e t ih =>
    intro acc v h
    rw [scanBest_cons] at h ⊢
    by_cases hc : jaccard s e.1 > acc.1
    · rw [if_pos hc] at h ⊢
      rcases ih h with ⟨p, hp, hv, hs⟩ | ⟨hv, hs⟩
      · exact Or.inl ⟨p, List.mem_cons_of_mem _ hp, hv, hs⟩
      · refine Or.inl ⟨e, List.mem_cons_self e t, ?_, ?_⟩
        · exact (Option.some.inj hv).symm
        · exact hs
    · rw [if_neg hc] at h ⊢
      rcases ih h with ⟨p, hp, hv, hs⟩ | hacc
      · exact Or.inl ⟨p, List.mem_cons_of_mem _ hp, hv, hs⟩
      · exact Or.inr hacc

/-- Shared shape of every scorer result: the fallback, or a table value. -/
lemma diagnosis_cases (tags : Finset String) :
    get_differential_diagnosis tags = fallbackBundle ∨
      ∃ p ∈ conditions_db, get_differential_diagnosis tags = p.2 := by
  unfold get_differential_diagnosis
  cases hm : (scanBest tags conditions_db (0, none)).2 with
  | none => exact Or.inl rfl
  | some v =>
    rcases scanBest_achieves hm with ⟨p, hp, hv, _⟩ | ⟨habs, _⟩
    · exact Or.inr ⟨p, hp, hv⟩
    · exact absurd habs (Option.noConfusion)

/-- All scores zero forces the fallback. -/
lemma diagnosis_fallback_of_zero {tags : Finset String}
    (h : ∀ p ∈ conditions_db, jaccard tags p.1 = 0) :
    get_differential_diagnosis tags = fallbackBundle := by
  unfold get_differential_diagnosis
  rw [scanBest_id]
  intro e he
  rw [h e he]

/-- No stored table value coincides with the fallback bundle. -/
lemma values_ne_fallback : ∀ p ∈ conditions_db, p.2 ≠ fallbackBundle := by decide

/-- A positive score somewhere forces a non-fallback result. -/
lemma diagnosis_ne_fallback_of_pos {tags : Finset String}
    (h : ∃ p ∈ conditions_db, 0 < jaccard tags p.1) :
    get_differential_diagnosis tags ≠ fallbackBundle := by
  obtain ⟨p, hp, hpos⟩ := h
  unfold get_differential_diagnosis
  cases hm : (scanBest tags conditions_db (0, none)).2 with
  | none =>
    have := (scanBest_snd_none hm).2 p hp
    exact absurd this (not_le.mpr hpos)
  | some v =>
    rcases scanBest_achieves hm with ⟨q, hq, hv, _⟩ | ⟨habs, _⟩
    · rw [hv]; exact values_ne_fallback q hq
    · exact absurd habs (Option.noConfusion)

/-- Every synonym in the vocabulary is already lower-case, so the source's
`variation in symptoms_lower` test is a case-insensitive substring test. -/
lemma synonyms_lowercase : ∀ p ∈ symptoms_db, ∀ v ∈ p.2, lowerText v = v := by decide

/-- Every stored entry has as many likelihoods as conditions. -/
lemma entry_lengths : ∀ p ∈ conditions_db, p.2.conditions.length = p.2.likelihood.length := by
  decide

/-! ### Concrete Jaccard scores for the scenario inputs -/

lemma jaccard_fcf_1 : jaccard {"fever", "cough", "fatigue"} combo1 = 2/3 := by
  rw [jaccard_concrete (i := 2) (u := 3) (by decide) (by decide) (by decide)]
  norm_num

lemma jaccard_fcf_2 : jaccard {"fever", "cough", "fatigue"} combo2 = 1/4 := by
  rw [jaccard_concrete (i := 1) (u := 4) (by decide) (by decide) (by decide)]
  norm_num

lemma jaccard_fcf_3 : jaccard {"fever", "cough", "fatigue"} combo3 = 1 := by
  rw [jaccard_concrete (i := 3) (u := 3) (by decide) (by decide) (by decide)]
  norm_num

lemma jaccard_fcf_4 : jaccard {"fever", "cough", "fatigue"} combo4 = 2/3 := by
  rw [jaccard_concrete (i := 2) (u := 3) (by decide) (by decide) (by decide)]
  norm_num

lemma jaccard_fever_1 : jaccard {"fever"} combo1 = 1/2 := by
  rw [jaccard_concrete (i := 1) (u := 2) (by decide) (by decide) (by decide)]
  norm_num

lemma jaccard_fever_2 : jaccard {"fever"} combo2 = 1/2 := by
  rw [jaccard_concrete (i := 1) (u := 2) (by decide) (by decide) (by decide)]
  norm_num

lemma jaccard_fever_3 : jaccard {"fever"} combo3 = 1/3 := by
  rw [jaccard_concrete (i := 1) (u := 3) (by decide) (by decide) (by decide)]
  norm_num

lemma jaccard_fever_4 : jaccard {"fever"} combo4 = 0 := by
  rw [jaccard_concrete (i := 0) (u := 3) (by decide) (by decide) (by decide)]
  norm_num

/-! ### Concrete scorer results -/

lemma diag_fcf : get_differential_diagnosis {"fever", "cough", "fatigue"} = info3 := by
  unfold get_differential_diagnosis scanBest conditions_db
  simp only [List.foldl_cons, List.foldl_nil]
  rw [jaccard_fcf_1, jaccard_fcf_2, jaccard_fcf_3, jaccard_fcf_4]
  split_ifs <;> first | rfl | (exfalso; linarith)

lemma diag_fever : get_differential_diagnosis {"fever"} = info1 := by
  unfold get_differential_diagnosis scanBest conditions_db
  simp only [List.foldl_cons, List.foldl_nil]
  rw [jaccard_fever_1, jaccard_fever_2, jaccard_fever_3, jaccard_fever_4]
  split_ifs <;> first | rfl | (exfalso; linarith)

/-! ### First-encountered-wins, entry by entry

If an entry's score is positive, at least as large as every later entry's,
and strictly larger than every earlier entry's, the scorer returns it. -/

lemma first_max_at_1 (tags : Finset String) (h1 : 0 < jaccard tags combo1)
    (h2 : jaccard tags combo2 ≤ jaccard tags combo1)
    (h3 : jaccard tags combo3 ≤ jaccard tags combo1)
    (h4 : jaccard tags combo4 ≤ jaccard tags combo1) :
    get_differential_diagnosis tags = info1 := by
  unfold get_differential_diagnosis scanBest conditions_db
  simp only [List.foldl_cons, List.foldl_nil]
  split_ifs <;> first | rfl | (exfalso; linarith)

lemma first_max_at_2 (tags : Finset String) (h1 : jaccard tags combo1 < jaccard tags combo2)
    (h2 : 0 < jaccard tags combo2)
    (h3 : jaccard tags combo3 ≤ jaccard tags combo2)
    (h4 : jaccard tags combo4 ≤ jaccard tags combo2) :
    get_differential_diagnosis tags = info2 := by
  unfold get_differential_diagnosis scanBest conditions_db
  simp only [List.foldl_cons, List.foldl_nil]
  split_ifs <;> first | rfl | (exfalso; linarith)

lemma first_max_at_3 (tags : Finset String) (h1 : jaccard tags combo1 < jaccard tags combo3)
    (h2 : jaccard tags combo2 < jaccard tags combo3)
    (h3 : 0 < jaccard tags combo3)
    (h4 : jaccard tags combo4 ≤ jaccard tags combo3) :
    get_differential_diagnosis tags = info3 := by
  unfold get_differential_diagnosis scanBest conditions_db
  simp only [List.foldl_cons, List.foldl_nil]
  split_ifs <;> first | rfl | (exfalso; linarith)

lemma first_max_at_4 (tags : Finset String) (h1 : jaccard tags combo1 < jaccard tags combo4)
    (h2 : jaccard tags combo2 < jaccard tags combo4)
    (h3 : jaccard tags combo3 < jaccard tags combo4)
    (h4 : 0 < jaccard tags combo4) :
    get_differential_diagnosis tags = info4 := by
  unfold get_differential_diagnosis scanBest conditions_db
  simp only [List.foldl_cons, List.foldl_nil]
  split_ifs <;> first | rfl | (exfalso; linarith)

/-! ### The checked scorer agrees with the plain one -/

lemma jaccardChecked_eq (a b : Finset String) : jaccardChecked a b = some (jaccard a b) := by
  unfold jaccardChecked jaccard divChecked
  by_cases h : (a ∪ b).card > 0
  · rw [if_pos h, if_pos h, if_neg]
    exact Nat.cast_ne_zero.mpr (Nat.pos_iff_ne_zero.mp h)
  · rw [if_neg h, if_neg h]

lemma scanBestChecked_eq (s : Finset String) (l : List (Finset String × ConditionInfo)) :
    ∀ acc : ℚ × Option ConditionInfo, scanBestChecked s l acc = some (scanBest s l acc) := by
  induction l with
  | nil => intro acc; rfl
  | cons e t ih =>
    intro acc
    unfold scanBestChecked at ih ⊢
    rw [List.foldlM_cons, jaccardChecked_eq, Option.map_some', scanBest_cons]
    exact ih _

/-! ### The claims -/

/-- C1: the scorer computes for each table entry the Jaccard similarity of the
input with the entry's combination set (0 on an empty union, by definition of
`jaccard`), and any non-fallback result is the value of an entry whose Jaccard
score is greatest; in particular `{"fever","cough","fatigue"}` selects the
entry keyed by all three tags (score 1) over the partial overlap
`{"fever","cough"}` (score 2/3 < 1). -/
theorem scorer_computes_max_jaccard :
    (∀ tags : Finset String, get_differential_diagnosis tags ≠ fallbackBundle →
      ∃ p ∈ conditions_db, get_differential_diagnosis tags = p.2 ∧
        ∀ q ∈ conditions_db, jaccard tags q.1 ≤ jaccard tags p.1) ∧
    get_differential_diagnosis {"fever", "cough", "fatigue"} = info3 ∧
    jaccard {"fever", "cough", "fatigue"} combo3 = 1 ∧
    jaccard {"fever", "cough", "fatigue"} combo1 < 1 := by
  refine ⟨fun tags hne => ?_, diag_fcf, jaccard_fcf_3, by rw [jaccard_fcf_1]; norm_num⟩
  unfold get_differential_diagnosis at hne ⊢
  cases hm : (scanBest tags conditions_db (0, none)).2 with
  | none => rw [hm] at hne; exact absurd rfl hne
  | some v =>
    rcases scanBest_achieves hm with ⟨p, hp, hv, hs⟩ | ⟨habs, _⟩
    · exact ⟨p, hp, hv, fun q hq =>
        (scanBest_le tags conditions_db (0, none) q hq).trans (le_of_eq hs)⟩
    · exact absurd habs Option.noConfusion

/-- C2: an input sharing no element with any combination key gets exactly the
fallback bundle (conditions `["Consult healthcare provider for evaluation"]`,
urgency `"unknown"`, likelihood `[1.0]`), and the fallback is returned exactly
when every table entry's Jaccard score is 0. -/
theorem scorer_fallback_iff_no_overlap :
    fallbackBundle.conditions = ["Consult healthcare provider for evaluation"] ∧
    fallbackBundle.urgency = "unknown" ∧
    fallbackBundle.likelihood = [1.0] ∧
    ∀ tags : Finset String,
      ((∀ p ∈ conditions_db, tags ∩ p.1 = ∅) →
        get_differential_diagnosis tags = fallbackBundle) ∧
      (get_differential_diagnosis tags = fallbackBundle ↔
        ∀ p ∈ conditions_db, jaccard tags p.1 = 0) := by
  refine ⟨rfl, rfl, rfl, fun tags => ⟨fun hdisj => ?_, ⟨fun hfb => ?_, fun hz => ?_⟩⟩⟩
  · exact diagnosis_fallback_of_zero fun p hp => jaccard_eq_zero_of_disjoint (hdisj p hp)
  · by_contra hne
    push_neg at hne
    obtain ⟨p, hp, hpz⟩ := hne
    have hpos : 0 < jaccard tags p.1 :=
      lt_of_le_of_ne (jaccard_nonneg tags p.1) (Ne.symm hpz)
    exact diagnosis_ne_fallback_of_pos ⟨p, hp, hpos⟩ hfb
  · exact diagnosis_fallback_of_zero hz

/-- C3 (corrected): the original claim fails for ties at score 0, where the
fallback is returned instead of any entry.  Amended: whenever an entry's score
is positive, at least every later entry's and strictly above every earlier
entry's — in particular at a positive tie — the scorer returns that first
maximal entry; and as a concrete positive tie, `{"fever"}` scores 1/2 on both
the first and second entries and the first entry's bundle is returned.
Repeated calls agree because the scorer is a function of its input. -/
theorem scorer_first_max_wins :
    (∀ tags : Finset String,
      ((0 < jaccard tags combo1 ∧ jaccard tags combo2 ≤ jaccard tags combo1 ∧
        jaccard tags combo3 ≤ jaccard tags combo1 ∧
        jaccard tags combo4 ≤ jaccard tags combo1) →
          get_differential_diagnosis tags = info1) ∧
      ((jaccard tags combo1 < jaccard tags combo2 ∧ 0 < jaccard tags combo2 ∧
        jaccard tags combo3 ≤ jaccard tags combo2 ∧
        jaccard tags combo4 ≤ jaccard tags combo2) →
          get_differential_diagnosis tags = info2) ∧
      ((jaccard tags combo1 < jaccard tags combo3 ∧
        jaccard tags combo2 < jaccard tags combo3 ∧ 0 < jaccard tags combo3 ∧
        jaccard tags combo4 ≤ jaccard tags combo3) →
          get_differential_diagnosis tags = info3) ∧
      ((jaccard tags combo1 < jaccard tags combo4 ∧
        jaccard tags combo2 < jaccard tags combo4 ∧
        jaccard tags combo3 < jaccard tags combo4 ∧ 0 < jaccard tags combo4) →
          get_differential_diagnosis tags = info4)) ∧
    jaccard {"fever"} combo1 = 1/2 ∧ jaccard {"fever"} combo2 = 1/2 ∧
    jaccard {"fever"} combo3 = 1/3 ∧ jaccard {"fever"} combo4 = 0 ∧
    get_differential_diagnosis {"fever"} = info1 := by
  refine ⟨fun tags => ⟨?_, ?_, ?_, ?_⟩,
    jaccard_fever_1, jaccard_fever_2, jaccard_fever_3, jaccard_fever_4, diag_fever⟩
  · exact fun ⟨h1, h2, h3, h4⟩ => first_max_at_1 tags h1 h2 h3 h4
  · exact fun ⟨h1, h2, h3, h4⟩ => first_max_at_2 tags h1 h2 h3 h4
  · exact fun ⟨h1, h2, h3, h4⟩ => first_max_at_3 tags h1 h2 h3 h4
  · exact fun ⟨h1, h2, h3, h4⟩ => first_max_at_4 tags h1 h2 h3 h4

/-- C3 counterexample: at the empty tag set every table entry has the same,
maximal Jaccard score 0, yet the scorer returns the fallback bundle, which is
not the value of the first entry (nor of any entry) — so "any two entries
with equal maximal score" does not always yield the first entry's value. -/
theorem scorer_zero_tie_counterexample :
    jaccard (∅ : Finset String) combo1 = 0 ∧
    jaccard (∅ : Finset String) combo2 = 0 ∧
    jaccard (∅ : Finset String) combo3 = 0 ∧
    jaccard (∅ : Finset String) combo4 = 0 ∧
    get_differential_diagnosis (∅ : Finset String) = fallbackBundle ∧
    fallbackBundle ≠ info1 ∧ fallbackBundle ≠ info2 ∧
    fallbackBundle ≠ info3 ∧ fallbackBundle ≠ info4 := by
  have h1 : jaccard (∅ : Finset String) combo1 = 0 :=
    jaccard_eq_zero_of_disjoint (by decide)
  have h2 : jaccard (∅ : Finset String) combo2 = 0 :=
    jaccard_eq_zero_of_disjoint (by decide)
  have h3 : jaccard (∅ : Finset String) combo3 = 0 :=
    jaccard_eq_zero_of_disjoint (by decide)
  have h4 : jaccard (∅ : Finset String) combo4 = 0 :=
    jaccard_eq_zero_of_disjoint (by decide)
  refine ⟨h1, h2, h3, h4, ?_, by decide, by decide, by decide, by decide⟩
  apply diagnosis_fallback_of_zero
  intro p hp
  rcases List.mem_cons.mp hp with rfl | hp
  · exact h1
  rcases List.mem_cons.mp hp with rfl | hp
  · exact h2
  rcases List.mem_cons.mp hp with rfl | hp
  · exact h3
  rcases List.mem_cons.mp hp with rfl | hp
  · exact h4
  · exact absurd hp (List.not_mem_nil p)

/-- C4: any input text containing a vocabulary synonym of tag T as a
case-insensitive substring yields T among the normalized tags. -/
theorem normalizer_synonym_membership (text : Text) (tag : String) (syns : List Text)
    (syn : Text) (hdb : (tag, syns) ∈ symptoms_db) (hsyn : syn ∈ syns)
    (hsub : lowerText syn <:+: lowerText text) :
    tag ∈ (normalize_symptoms text).normalized_symptoms := by
  have hl : lowerText syn = syn := synonyms_lowercase (tag, syns) hdb syn hsyn
  show tag ∈ ((symptoms_db.filter
    (fun p => matchesAny (lowerText text) p.2)).map Prod.fst).toFinset
  rw [List.mem_toFinset, List.mem_map]
  refine ⟨(tag, syns), List.mem_filter.mpr ⟨hdb, ?_⟩, rfl⟩
  unfold matchesAny
  rw [List.any_eq_true]
  exact ⟨syn, hsyn, decide_eq_true (by rw [← hl]; exact hsub)⟩

/-- C4 witness: "Burning Up" names the fever synonym "burning up"
case-insensitively, so the normalizer tags the text with fever. -/
theorem normalizer_synonym_membership_witness :
    "fever" ∈ (normalize_symptoms ("I am Burning Up today".data)).normalized_symptoms :=
  normalizer_synonym_membership ("I am Burning Up today".data) "fever"
    ["fever".data, "high temperature".data, "pyrexia".data,
     "febrile".data, "hot".data, "burning up".data]
    ("burning up".data) (by decide) (by decide) (by decide)

/-- C5: for every input tag set the scorer's result has as many likelihood
entries as condition names. -/
theorem scorer_parallel_lengths (tags : Finset String) :
    (get_differential_diagnosis tags).conditions.length =
      (get_differential_diagnosis tags).likelihood.length := by
  rcases diagnosis_cases tags with h | ⟨p, hp, h⟩
  · rw [h]; rfl
  · rw [h]; exact entry_lengths p hp

/-- C6: the end-to-end scenario: the sample sentence normalizes to exactly
`{fever, cough, fatigue}`, and scoring that set returns the entry with
conditions `["Influenza","COVID-19","Pneumonia","Bronchitis"]`, urgency
`"moderate"` and likelihood `[0.4, 0.3, 0.2, 0.1]`. -/
theorem end_to_end_scenario :
    (normalize_symptoms ("I have been feeling tired with a fever and cough".data)).normalized_symptoms
        = {"fever", "cough", "fatigue"} ∧
    get_differential_diagnosis {"fever", "cough", "fatigue"} = info3 ∧
    info3.conditions = ["Influenza", "COVID-19", "Pneumonia", "Bronchitis"] ∧
    info3.urgency = "moderate" ∧
    info3.likelihood = [0.4, 0.3, 0.2, 0.1] :=
  ⟨by decide, diag_fcf, rfl, rfl, rfl⟩

/-- C7: a text containing no synonym of any tag as a case-insensitive
substring normalizes to the empty tag set, and the empty text does so too —
both as ordinary results, not errors. -/
theorem normalizer_no_synonym_empty :
    (∀ text : Text,
      (∀ p ∈ symptoms_db, ∀ v ∈ p.2, ¬ lowerText v <:+: lowerText text) →
      (normalize_symptoms text).normalized_symptoms = ∅) ∧
    (normalize_symptoms ([] : Text)).normalized_symptoms = ∅ := by
  refine ⟨fun text h => ?_, by decide⟩
  show ((symptoms_db.filter
    (fun p => matchesAny (lowerText text) p.2)).map Prod.fst).toFinset = ∅
  rw [List.toFinset_eq_empty_iff, List.map_eq_nil_iff, List.filter_eq_nil_iff]
  intro p hp hmatch
  unfold matchesAny at hmatch
  rw [List.any_eq_true] at hmatch
  obtain ⟨v, hv, hdec⟩ := hmatch
  exact h p hp v hv (by rw [synonyms_lowercase p hp v hv]; exact of_decide_eq_true hdec)

/-- C8: both core operations are total: the scorer with every division
checked never reports a division by zero and agrees with the unchecked
scorer, and the normalizer's reported count is the tag set's cardinality. -/
theorem core_operations_total :
    (∀ tags : Finset String,
      get_differential_diagnosis_checked tags = some (get_differential_diagnosis tags)) ∧
    (∀ text : Text,
      (normalize_symptoms text).symptom_count =
        (normalize_symptoms text).normalized_symptoms.card) := by
  refine ⟨fun tags => ?_, fun text => rfl⟩
  unfold get_differential_diagnosis_checked get_differential_diagnosis
  rw [scanBestChecked_eq]
  rfl

/-- C9: every scorer result is, verbatim, either the fallback bundle or the
stored value of one of the table's entries. -/
theorem scorer_returns_table_value_verbatim (tags : Finset String) :
    get_differential_diagnosis tags = fallbackBundle ∨
      ∃ p ∈ conditions_db, get_differential_diagnosis tags = p.2 :=
  diagnosis_cases tags

/-- C10: the normalizer's tag set only grows when the text is extended on
either side, and it depends only on the lower-cased text, so inputs differing
only in letter case normalize identically. -/
theorem normalizer_monotone_case_insensitive :
    (∀ p t s : Text, (normalize_symptoms t).normalized_symptoms ⊆
        (normalize_symptoms (p ++ t ++ s)).normalized_symptoms) ∧
    (∀ t₁ t₂ : Text, lowerText t₁ = lowerText t₂ →
      (normalize_symptoms t₁).normalized_symptoms =
        (normalize_symptoms t₂).normalized_symptoms) := by
  constructor
  · intro p t s x hx
    have hx' := List.mem_toFinset.mp hx
    obtain ⟨q, hq, hfst⟩ := List.mem_map.mp hx'
    obtain ⟨hqdb, hmatch⟩ := List.mem_filter.mp hq
    apply List.mem_toFinset.mpr
    apply List.mem_map.mpr
    refine ⟨q, List.mem_filter.mpr ⟨hqdb, ?_⟩, hfst⟩
    unfold matchesAny at hmatch ⊢
    rw [List.any_eq_true] at hmatch ⊢
    obtain ⟨v, hv, hdec⟩ := hmatch
    refine ⟨v, hv, decide_eq_true ?_⟩
    have happ : lowerText (p ++ t ++ s) = lowerText p ++ lowerText t ++ lowerText s := by
      unfold lowerText
      rw [List.map_append, List.map_append]
    rw [happ]
    exact (of_decide_eq_true hdec).trans (List.infix_append _ _ _)
  · intro t₁ t₂ h
    show ((symptoms_db.filter
      (fun q => matchesAny (lowerText t₁) q.2)).map Prod.fst).toFinset =
      ((symptoms_db.filter
        (fun q => matchesAny (lowerText t₂) q.2)).map Prod.fst).toFinset
    rw [h]

end Clinician
